import Mathlib

/-!
# Verification of the distance-server repository

A shallow embedding, in Lean 4, of the parts of the `distance-server`
repository that the specification's claims are about:

* `src/services/distance_calculator.py` — the `DistanceCalculator` service
  (pairwise metrics `euclidean`, `manhattan`, `cosine`, `hamming`,
  `jaccard`, the `calculate` entry point and the all-pairs
  `batch_calculate`);
* `src/services/results_exporter.py` — the `ResultsExporter` service
  (`_export_json` and `_export_csv`);
* `src/app.py` — the `POST /api/calculate-distance` route handler.

Modelling conventions:

* Input coordinates are rationals (`ℚ`); distance values live in `ℝ`
  because the euclidean and cosine metrics take square roots
  (`np.linalg.norm`).  Functions touching `ℝ` are `noncomputable`; all
  string/`ℚ`-level functions are computable.
* Python exceptions (`ValueError`) become `Except CalcError`; the
  distinct error messages raised by the source become the constructors of
  `CalcError`.
* The non-semantic metadata the source attaches to results (wall-clock
  timestamps, random UUIDs) is omitted from result structures, or passed
  in as an explicit parameter where the claim needs it (the JSON export
  envelope); the spec itself states this metadata is not load-bearing.
-/

namespace DistanceServer

/-! ## `DistanceCalculator` (src/services/distance_calculator.py)

`self.supported_types` from `DistanceCalculator.__init__`. -/

def supported_types : List String :=
  ["euclidean", "manhattan", "cosine", "hamming", "jaccard"]

/-- Elementwise difference `point_a - point_b` of two numpy vectors. -/
def listSub (a b : List ℚ) : List ℚ :=
  (a.zip b).map fun p => p.1 - p.2

/-- Sum of squares of the entries of a vector. -/
def sumSq (l : List ℚ) : ℚ :=
  (l.map fun x => x ^ 2).sum

/-- `np.linalg.norm v` : the L2 norm, `sqrt (Σ vᵢ²)`. -/
noncomputable def npNorm (l : List ℚ) : ℝ :=
  Real.sqrt (sumSq l)

/-- `np.dot a b = Σ aᵢ·bᵢ` (elementwise over the common prefix). -/
def dotProduct (a b : List ℚ) : ℚ :=
  ((a.zip b).map fun p => p.1 * p.2).sum

/-- `DistanceCalculator._euclidean_distance`: `np.linalg.norm(point_a - point_b)`. -/
noncomputable def euclidean_distance (a b : List ℚ) : ℝ :=
  npNorm (listSub a b)

/-- `DistanceCalculator._manhattan_distance`: `np.sum(np.abs(point_a - point_b))`. -/
def manhattan_distance (a b : List ℚ) : ℚ :=
  ((listSub a b).map fun x => |x|).sum

/-- `DistanceCalculator._cosine_distance`:
`1 - dot/(norm_a*norm_b)`, and `1.0` when either norm is zero. -/
noncomputable def cosine_distance (a b : List ℚ) : ℝ :=
  if npNorm a = 0 ∨ npNorm b = 0 then 1
  else 1 - (dotProduct a b : ℝ) / (npNorm a * npNorm b)

/-- `DistanceCalculator._hamming_distance`: `np.sum(point_a != point_b)`, the
number of positions at which the two vectors differ. -/
def hamming_distance (a b : List ℚ) : ℕ :=
  ((a.zip b).map fun p => if p.1 = p.2 then 0 else 1).sum

/-- The local `intersection = np.sum(np.minimum(a, b))` of `_jaccard_distance`. -/
def jaccard_intersection (a b : List ℚ) : ℚ :=
  ((a.zip b).map fun p => min p.1 p.2).sum

/-- The local `union = np.sum(np.maximum(a, b))` of `_jaccard_distance`. -/
def jaccard_union (a b : List ℚ) : ℚ :=
  ((a.zip b).map fun p => max p.1 p.2).sum

/-- `DistanceCalculator._jaccard_distance`:
`0.0` when the union sum is zero, else `1 - intersection/union`. -/
def jaccard_distance (a b : List ℚ) : ℚ :=
  if jaccard_union a b = 0 then 0
  else 1 - jaccard_intersection a b / jaccard_union a b

/-- The `ValueError`s raised by `DistanceCalculator`, one constructor per
distinct message in the source. -/
inductive CalcError where
  /-- `"Unsupported calculation type: {calculation_type}"` -/
  | invalidMetric (calculation_type : String)
  /-- `"Points must have same dimensionality"` -/
  | dimensionMismatch
  /-- `"At least 2 points required for batch calculation"` -/
  | insufficientPoints
deriving DecidableEq

/-- The dictionary returned by `DistanceCalculator.calculate` (its
`metadata` sub-dictionary — timestamp and random UUID — is omitted). -/
structure CalcResult where
  distance : ℝ
  calculation_type : String
  point_a : List ℚ
  point_b : List ℚ
  dimensionality : ℕ

/-- The `if/elif` chain of `DistanceCalculator.calculate` dispatching on
`calculation_type` (lines 42–51 of the source).  The final `0` branch is
unreachable: `calculate` validates the type before dispatching. -/
noncomputable def metric_distance (a b : List ℚ) (calculation_type : String) : ℝ :=
  if calculation_type = "euclidean" then euclidean_distance a b
  else if calculation_type = "manhattan" then (manhattan_distance a b : ℚ)
  else if calculation_type = "cosine" then cosine_distance a b
  else if calculation_type = "hamming" then (hamming_distance a b : ℕ)
  else if calculation_type = "jaccard" then (jaccard_distance a b : ℚ)
  else 0

/-- `DistanceCalculator.calculate`: validates the metric kind, then the
dimensionality, then dispatches to the metric formula. -/
noncomputable def calculate (point_a point_b : List ℚ)
    (calculation_type : String) : Except CalcError CalcResult :=
  if calculation_type ∉ supported_types then
    .error (.invalidMetric calculation_type)
  else if point_a.length ≠ point_b.length then
    .error .dimensionMismatch
  else
    .ok { distance := metric_distance point_a point_b calculation_type
          calculation_type := calculation_type
          point_a := point_a
          point_b := point_b
          dimensionality := point_a.length }

/-- One entry of `calculation_pairs`: `{'point_indices': [i, j], 'distance': d}`. -/
structure CalculationPair where
  point_indices : List ℕ
  distance : ℝ

/-- The dictionary returned by `DistanceCalculator.batch_calculate`
(timestamp and batch UUID omitted; `point_count` kept from `metadata`). -/
structure BatchResult where
  distance_matrix : List (List ℝ)
  calculation_type : String
  points : List (List ℚ)
  calculation_pairs : List CalculationPair
  point_count : ℕ

/-- The body of the inner `for j in range(len(points))` loop of
`batch_calculate`: extend the current row (and, when `i < j`, the running
pair list) with the cell `(i, j)`. -/
noncomputable def batch_step (points : List (List ℚ)) (calculation_type : String)
    (i : ℕ) (acc : List ℝ × List CalculationPair) (j : ℕ) :
    Except CalcError (List ℝ × List CalculationPair) :=
  if i = j then .ok (acc.1 ++ [0], acc.2)
  else do
    let result ← calculate (points.getD i []) (points.getD j []) calculation_type
    let pairs := if i < j then acc.2 ++ [⟨[i, j], result.distance⟩] else acc.2
    .ok (acc.1 ++ [result.distance], pairs)

/-- The inner loop of `batch_calculate`: builds row `i` of the matrix,
threading the accumulated `calculation_pairs`. -/
noncomputable def batch_row (points : List (List ℚ)) (calculation_type : String)
    (pairs : List CalculationPair) (i : ℕ) :
    Except CalcError (List ℝ × List CalculationPair) :=
  (List.range points.length).foldlM (batch_step points calculation_type i) ([], pairs)

/-- The body of the outer `for i in range(len(points))` loop of
`batch_calculate`: append row `i` to the matrix, threading the pair list. -/
noncomputable def batch_outer_step (points : List (List ℚ)) (calculation_type : String)
    (acc : List (List ℝ) × List CalculationPair) (i : ℕ) :
    Except CalcError (List (List ℝ) × List CalculationPair) := do
  let rp ← batch_row points calculation_type acc.2 i
  pure (acc.1 ++ [rp.1], rp.2)

/-- `DistanceCalculator.batch_calculate`: the all-pairs N×N distance matrix
plus the deduplicated `i < j` pair list. -/
noncomputable def batch_calculate (points : List (List ℚ))
    (calculation_type : String) : Except CalcError BatchResult :=
  if points.length < 2 then .error .insufficientPoints
  else do
    let mp ← (List.range points.length).foldlM
      (batch_outer_step points calculation_type)
      (([] : List (List ℝ)), ([] : List CalculationPair))
    pure { distance_matrix := mp.1
           calculation_type := calculation_type
           points := points
           calculation_pairs := mp.2
           point_count := points.length }

/-- Entry `(i, j)` of a distance matrix, read the way the exporter and the
claims read it (row `i`, column `j`; out-of-range reads default). -/
def matrixEntry (m : List (List ℝ)) (i j : ℕ) : ℝ :=
  (m.getD i []).getD j 0

/-- The value the batch loop puts into matrix cell `(i, j)` on its success
path: `0.0` on the diagonal, the dispatched metric formula off it. -/
noncomputable def batch_cell (points : List (List ℚ)) (t : String) (i j : ℕ) : ℝ :=
  if i = j then 0
  else metric_distance (points.getD i []) (points.getD j []) t

/-- The contribution of matrix cell `(i, j)` to `calculation_pairs` on the
success path: a single entry when `i < j`, nothing otherwise. -/
noncomputable def batch_pair_entries (points : List (List ℚ)) (t : String) (i j : ℕ) :
    List CalculationPair :=
  if i < j then
    [⟨[i, j], metric_distance (points.getD i []) (points.getD j []) t⟩]
  else []

/-! ## JSON data model (for `ResultsExporter`, src/services/results_exporter.py)

The exporter receives the request's `results` object — JSON-native Python
data.  `JValue` is the shallow embedding of such data: null, booleans,
(integer) numbers, strings, arrays and string-keyed objects.  Strings are
lists of characters; object fields keep their order. -/

inductive JValue where
  | null
  | bool (b : Bool)
  | num (n : ℤ)
  | str (s : List Char)
  | arr (elems : List JValue)
  | obj (fields : List (List Char × JValue))

def toCharList (s : String) : List Char := s.toList

/-- The decimal digit characters. -/
def digitChar (d : ℕ) : Char :=
  match d with
  | 0 => '0' | 1 => '1' | 2 => '2' | 3 => '3' | 4 => '4'
  | 5 => '5' | 6 => '6' | 7 => '7' | 8 => '8' | 9 => '9'
  | _ => '?'

/-- Big-endian base-10 digit values of `n`, with explicit recursion fuel. -/
def natDigitsRev : ℕ → ℕ → List ℕ
  | 0, _ => []
  | fuel + 1, n => if n = 0 then [] else natDigitsRev fuel (n / 10) ++ [n % 10]

/-- Big-endian base-10 digit values of `n` (`[0]` for zero). -/
def natDigitList (n : ℕ) : List ℕ := if n = 0 then [0] else natDigitsRev n n

/-- Decimal rendering of a natural number. -/
def natToDigitChars (n : ℕ) : List Char := (natDigitList n).map digitChar

/-- Decimal rendering of an integer, as Python `str`/`json.dumps` render it. -/
def renderInt (n : ℤ) : List Char :=
  if n < 0 then '-' :: natToDigitChars n.natAbs else natToDigitChars n.toNat

/-- JSON string escaping of one character (quote and backslash). -/
def escapeChar (c : Char) : List Char :=
  if c = '"' ∨ c = '\\' then ['\\', c] else [c]

def escapeString (s : List Char) : List Char := s.flatMap escapeChar

/-! `render` models `json.dumps` on `JValue` data: the same token stream the
Python encoder produces.  (The source passes `indent=2`, which only inserts
whitespace that `json.loads` discards; the model omits that whitespace, which
is irrelevant to the parse-back result.) -/

mutual

def render : JValue → List Char
  | .null => toCharList "null"
  | .bool true => toCharList "true"
  | .bool false => toCharList "false"
  | .num n => renderInt n
  | .str s => '"' :: escapeString s ++ ['"']
  | .arr es => '[' :: renderElemsAux es
  | .obj fs => '\x7b' :: renderFieldsAux fs

def renderElemsAux : List JValue → List Char
  | [] => [']']
  | [v] => render v ++ [']']
  | v :: vs => render v ++ ',' :: renderElemsAux vs

def renderFieldsAux : List (List Char × JValue) → List Char
  | [] => ['\x7d']
  | [(k, v)] => '"' :: escapeString k ++ '"' :: ':' :: render v ++ ['\x7d']
  | (k, v) :: fs => '"' :: escapeString k ++ '"' :: ':' :: render v ++ ',' :: renderFieldsAux fs

end

/-! `jsize` is the nesting size of a JSON value: an upper bound for the
parser fuel. -/

mutual

def jsize : JValue → ℕ
  | .null => 1
  | .bool _ => 1
  | .num _ => 1
  | .str _ => 1
  | .arr es => 1 + jsizeElems es
  | .obj fs => 1 + jsizeFields fs

def jsizeElems : List JValue → ℕ
  | [] => 1
  | v :: vs => 1 + max (jsize v) (jsizeElems vs)

def jsizeFields : List (List Char × JValue) → ℕ
  | [] => 1
  | (_, v) :: fs => 1 + max (jsize v) (jsizeFields fs)

end

/-! `parseValue` models `json.loads` on the (whitespace-free) strings the
encoder produces: a recursive-descent parser returning the parsed value and
the unconsumed input, with explicit fuel bounding the nesting depth. -/

def charDigitVal (c : Char) : ℕ := c.toNat - 48

/-- Longest digit prefix of the input, as digit values, plus the remainder. -/
def spanDigits : List Char → List ℕ × List Char
  | [] => ([], [])
  | c :: rest =>
      if c.isDigit then
        let p := spanDigits rest
        (charDigitVal c :: p.1, p.2)
      else ([], c :: rest)

/-- Value of a big-endian digit list. -/
def digitsVal (ds : List ℕ) : ℕ := ds.foldl (fun a d => a * 10 + d) 0

/-- Parses a JSON string body (after the opening quote) up to the closing
quote, undoing backslash escapes. -/
def parseStringBody : List Char → Option (List Char × List Char)
  | [] => none
  | c :: rest =>
      if c = '"' then some ([], rest)
      else if c = '\\' then
        match rest with
        | [] => none
        | d :: rest2 =>
            match parseStringBody rest2 with
            | none => none
            | some (s, r) => some (d :: s, r)
      else
        match parseStringBody rest with
        | none => none
        | some (s, r) => some (c :: s, r)

mutual

def parseValue : ℕ → List Char → Option (JValue × List Char)
  | 0, _ => none
  | _ + 1, [] => none
  | fuel + 1, c :: rest =>
      if c = 'n' then
        match rest with
        | 'u' :: 'l' :: 'l' :: r => some (.null, r)
        | _ => none
      else if c = 't' then
        match rest with
        | 'r' :: 'u' :: 'e' :: r => some (.bool true, r)
        | _ => none
      else if c = 'f' then
        match rest with
        | 'a' :: 'l' :: 's' :: 'e' :: r => some (.bool false, r)
        | _ => none
      else if c = '"' then
        match parseStringBody rest with
        | none => none
        | some (s, r) => some (.str s, r)
      else if c = '-' then
        match rest with
        | [] => none
        | d :: _ =>
            if d.isDigit then
              let p := spanDigits rest
              some (.num (-(digitsVal p.1 : ℤ)), p.2)
            else none
      else if c.isDigit then
        let p := spanDigits (c :: rest)
        some (.num (digitsVal p.1 : ℤ), p.2)
      else if c = '[' then
        match parseElems fuel rest with
        | none => none
        | some (es, r) => some (.arr es, r)
      else if c = '\x7b' then
        match parseFields fuel rest with
        | none => none
        | some (fs, r) => some (.obj fs, r)
      else none

def parseElems : ℕ → List Char → Option (List JValue × List Char)
  | 0, _ => none
  | _ + 1, [] => none
  | fuel + 1, c :: r =>
      if c = ']' then some ([], r)
      else
        match parseValue fuel (c :: r) with
        | none => none
        | some (v, r1) =>
            match r1 with
            | ',' :: r2 =>
                (match parseElems fuel r2 with
                 | none => none
                 | some (vs, r3) => some (v :: vs, r3))
            | ']' :: r2 => some ([v], r2)
            | _ => none

def parseFields : ℕ → List Char → Option (List (List Char × JValue) × List Char)
  | 0, _ => none
  | _ + 1, [] => none
  | fuel + 1, c :: r =>
      if c = '\x7d' then some ([], r)
      else if c = '"' then
        match parseStringBody r with
        | none => none
        | some (k, r1) =>
            match r1 with
            | ':' :: r2 =>
                (match parseValue fuel r2 with
                 | none => none
                 | some (v, r3) =>
                     match r3 with
                     | ',' :: r4 =>
                         (match parseFields fuel r4 with
                          | none => none
                          | some (fs, r5) => some ((k, v) :: fs, r5))
                     | '\x7d' :: r4 => some ([(k, v)], r4)
                     | _ => none)
            | _ => none
      else none

end

/-- The continuation after a rendered number must not begin with a digit
(inside documents it is always `,`, `]`, `\x7d` or the end of input). -/
def goodTail : List Char → Prop
  | [] => True
  | c :: _ => c.isDigit = false

/-- Key lookup in a parsed JSON object. -/
def jlookup (k : List Char) : JValue → Option JValue
  | .obj fs => fs.lookup k
  | _ => none

/-! ## `ResultsExporter._export_json` (src/services/results_exporter.py) -/

/-- The `export_info` sub-dictionary of the JSON export envelope. -/
def export_info_fields (timestamp : List Char) : List (List Char × JValue) :=
  [(toCharList "format", .str (toCharList "json")),
   (toCharList "timestamp", .str timestamp),
   (toCharList "version", .str (toCharList "1.0"))]

/-- The `export_data` dictionary built by `_export_json`: the envelope
(format, timestamp, version) alongside the original data.  The wall-clock
timestamp is passed in explicitly. -/
def export_json_value (results_data : JValue) (timestamp : List Char) : JValue :=
  .obj [(toCharList "export_info", .obj (export_info_fields timestamp)),
        (toCharList "results", results_data)]

/-- `ResultsExporter._export_json`: `json.dumps(export_data, ...)`. -/
def export_json (results_data : JValue) (timestamp : List Char) : List Char :=
  render (export_json_value results_data timestamp)

/-! ## `ResultsExporter._export_csv` (src/services/results_exporter.py) -/

/-! `pyStr` is Python `str()` of a value, as the `csv` writer applies it to
each cell (strings appear bare at top level; nested values use `repr`, which
quotes strings). -/

mutual

def pyStr : JValue → List Char
  | .null => toCharList "None"
  | .bool true => toCharList "True"
  | .bool false => toCharList "False"
  | .num n => renderInt n
  | .str s => s
  | .arr es => '[' :: pyReprJoin es ++ [']']
  | .obj fs => '\x7b' :: pyReprFieldsJoin fs ++ ['\x7d']

def pyRepr : JValue → List Char
  | .null => toCharList "None"
  | .bool true => toCharList "True"
  | .bool false => toCharList "False"
  | .num n => renderInt n
  | .str s => '\'' :: s ++ ['\'']
  | .arr es => '[' :: pyReprJoin es ++ [']']
  | .obj fs => '\x7b' :: pyReprFieldsJoin fs ++ ['\x7d']

def pyReprJoin : List JValue → List Char
  | [] => []
  | [v] => pyRepr v
  | v :: vs => pyRepr v ++ ',' :: ' ' :: pyReprJoin vs

def pyReprFieldsJoin : List (List Char × JValue) → List Char
  | [] => []
  | [(k, v)] => '\'' :: k ++ '\'' :: ':' :: ' ' :: pyRepr v
  | (k, v) :: fs =>
      '\'' :: k ++ '\'' :: ':' :: ' ' :: pyRepr v ++ ',' :: ' ' :: pyReprFieldsJoin fs

end

/-- Does a CSV field need quoting (contains delimiter, quote or newline)? -/
def csvNeedsQuote (f : List Char) : Bool :=
  f.any fun c => c = ',' ∨ c = '"' ∨ c = '\r' ∨ c = '\n'

/-- Quote a CSV field when needed, doubling embedded quotes (`csv.writer`). -/
def csvEscapeField (f : List Char) : List Char :=
  if csvNeedsQuote f then
    '"' :: (f.flatMap fun c => if c = '"' then ['"', '"'] else [c]) ++ ['"']
  else f

def csvJoinFields : List (List Char) → List Char
  | [] => []
  | [f] => csvEscapeField f
  | f :: fs => csvEscapeField f ++ ',' :: csvJoinFields fs

/-- One `csv.writer.writerow` call: comma-joined fields plus `\r\n`. -/
def csvRow (row : List (List Char)) : List Char := csvJoinFields row ++ ['\r', '\n']

def csvRender (rows : List (List (List Char))) : List Char := (rows.map csvRow).flatten

/-- The matrix rows of `_export_csv`: row `i` is `['P{i}'] + row`.  Fails
(`none`) when a row is not a list, as the Python `+` would. -/
def csvMatrixRows : ℕ → List JValue → Option (List (List (List Char)))
  | _, [] => some []
  | i, .arr cells :: rest =>
      (csvMatrixRows (i + 1) rest).map fun rs =>
        (('P' :: natToDigitChars i) :: cells.map pyStr) :: rs
  | _, _ => none

/-- The pair rows of `_export_csv`: `[indices[0], indices[1], distance]` per
pair.  Fails (`none`) where the Python subscripts would raise. -/
def csvPairRows : List JValue → Option (List (List (List Char)))
  | [] => some []
  | .obj fields :: rest =>
      (match fields.lookup (toCharList "point_indices") with
       | some (.arr (i0 :: i1 :: _)) =>
           (match fields.lookup (toCharList "distance") with
            | some dv =>
                (csvPairRows rest).map fun rs =>
                  [pyStr i0, pyStr i1, pyStr dv] :: rs
            | none => none)
       | _ => none)
  | _ => none

/-- `ResultsExporter._export_csv`: distance matrix shape when
`'distance_matrix'` is a key, else calculation-pair shape when
`'calculation_pairs'` is a key, else a generic key/value dump.  The top-level
dictionary is an association list of string keys and JSON values. -/
def export_csv (results_data : List (List Char × JValue)) : Option (List Char) :=
  match results_data.lookup (toCharList "distance_matrix") with
  | some (.arr rows) =>
      (csvMatrixRows 0 rows).map fun rs =>
        csvRender ((toCharList "Point" ::
          (List.range rows.length).map fun i => 'P' :: natToDigitChars i) :: rs)
  | some _ => none
  | none =>
      match results_data.lookup (toCharList "calculation_pairs") with
      | some (.arr pairs) =>
          (csvPairRows pairs).map fun rs =>
            csvRender ([toCharList "Point_A_Index", toCharList "Point_B_Index",
              toCharList "Distance"] :: rs)
      | some _ => none
      | none =>
          some (csvRender ([toCharList "Key", toCharList "Value"] ::
            results_data.map fun f => [f.1, pyStr f.2]))

/-! ## The `POST /api/calculate-distance` route (src/app.py) -/

/-- The route's possible responses: a JSON 200 with the result dictionary, a
400 with an error message, or a 500 with an error message. -/
inductive ApiResponse where
  | ok (result : CalcResult)
  | badRequest (error : String)
  | serverError (error : String)

/-- Python truthiness of an optional list value, as tested by
`if not point_a or not point_b`: `None` and `[]` are falsy. -/
def pyTruthy : Option (List ℚ) → Bool
  | none => false
  | some [] => false
  | some (_ :: _) => true

/-- The `calculate_distance` handler of `src/app.py`: reads `point_a`,
`point_b` and `type` (default `"euclidean"`) from the request body, returns
400 when either point is falsy, otherwise calls the calculator and converts
any exception into a 500. -/
noncomputable def calculate_distance_route (point_a point_b : Option (List ℚ))
    (ctype : Option String) : ApiResponse :=
  let calculation_type := ctype.getD "euclidean"
  if pyTruthy point_a = false ∨ pyTruthy point_b = false then
    .badRequest "Both points are required"
  else
    match calculate (point_a.getD []) (point_b.getD []) calculation_type with
    | .ok r => .ok r
    | .error _ => .serverError "Calculation failed"

/-! ## Basic lemmas about the metric formulas -/

lemma sumSq_nonneg (l : List ℚ) : 0 ≤ sumSq l := by
  refine List.sum_nonneg ?_
  intro x hx
  obtain ⟨y, _, rfl⟩ := List.mem_map.mp hx
  positivity

lemma npNorm_nonneg (l : List ℚ) : 0 ≤ npNorm l :=
  Real.sqrt_nonneg _

lemma npNorm_eq_zero_iff (l : List ℚ) : npNorm l = 0 ↔ sumSq l = 0 := by
  rw [npNorm, Real.sqrt_eq_zero (by exact_mod_cast sumSq_nonneg l)]
  exact_mod_cast Iff.rfl

/-- Sums over `zip` of a symmetric binary map are symmetric in the two lists. -/
lemma zip_map_sum_comm {γ : Type*} [AddCommMonoid γ] (f : ℚ × ℚ → γ)
    (hf : ∀ x y, f (x, y) = f (y, x)) (a b : List ℚ) :
    ((a.zip b).map f).sum = ((b.zip a).map f).sum := by
  rw [← List.zip_swap a b, List.map_map]
  congr 1
  refine List.map_congr_left ?_
  intro p _
  obtain ⟨x, y⟩ := p
  exact hf x y

lemma sumSq_listSub (a b : List ℚ) :
    sumSq (listSub a b) = ((a.zip b).map fun p => (p.1 - p.2) ^ 2).sum := by
  rw [sumSq, listSub, List.map_map]
  rfl

lemma euclidean_distance_comm (a b : List ℚ) :
    euclidean_distance a b = euclidean_distance b a := by
  unfold euclidean_distance npNorm
  rw [sumSq_listSub, sumSq_listSub,
    zip_map_sum_comm (fun p => (p.1 - p.2) ^ 2) (fun x y => by ring) a b]

lemma manhattan_distance_comm (a b : List ℚ) :
    manhattan_distance a b = manhattan_distance b a := by
  unfold manhattan_distance
  have h : ∀ u v : List ℚ, ((listSub u v).map fun x => |x|).sum
      = ((u.zip v).map fun p => |p.1 - p.2|).sum := by
    intro u v
    rw [listSub, List.map_map]
    rfl
  rw [h, h, zip_map_sum_comm (fun p => |p.1 - p.2|) (fun x y => abs_sub_comm x y) a b]

lemma dotProduct_comm (a b : List ℚ) : dotProduct a b = dotProduct b a := by
  unfold dotProduct
  exact zip_map_sum_comm (fun p => p.1 * p.2) (fun x y => mul_comm x y) a b

lemma cosine_distance_comm (a b : List ℚ) :
    cosine_distance a b = cosine_distance b a := by
  unfold cosine_distance
  by_cases h : npNorm a = 0 ∨ npNorm b = 0
  · rw [if_pos h, if_pos h.symm]
  · rw [if_neg h, if_neg (fun hc => h hc.symm), dotProduct_comm a b,
      mul_comm (npNorm b) (npNorm a)]

lemma hamming_distance_comm (a b : List ℚ) :
    hamming_distance a b = hamming_distance b a := by
  unfold hamming_distance
  refine zip_map_sum_comm (fun p => if p.1 = p.2 then 0 else 1) ?_ a b
  intro x y
  by_cases h : x = y <;> simp [h, eq_comm]

lemma jaccard_intersection_comm (a b : List ℚ) :
    jaccard_intersection a b = jaccard_intersection b a :=
  zip_map_sum_comm (fun p => min p.1 p.2) (fun x y => min_comm x y) a b

lemma jaccard_union_comm (a b : List ℚ) :
    jaccard_union a b = jaccard_union b a :=
  zip_map_sum_comm (fun p => max p.1 p.2) (fun x y => max_comm x y) a b

lemma jaccard_distance_comm (a b : List ℚ) :
    jaccard_distance a b = jaccard_distance b a := by
  unfold jaccard_distance
  rw [jaccard_intersection_comm, jaccard_union_comm]

lemma metric_distance_comm (a b : List ℚ) (t : String) :
    metric_distance a b t = metric_distance b a t := by
  unfold metric_distance
  split_ifs
  · exact euclidean_distance_comm a b
  · exact_mod_cast manhattan_distance_comm a b
  · exact cosine_distance_comm a b
  · exact_mod_cast hamming_distance_comm a b
  · exact_mod_cast jaccard_distance_comm a b
  · rfl

/-! ## Cauchy–Schwarz for the cosine bound -/

/-- A list sum over a `map` as a `Finset.range` sum over default-read entries. -/
lemma map_sum_eq_range_sum (f : ℚ → ℚ) :
    ∀ l : List ℚ, (l.map f).sum = ∑ i in Finset.range l.length, f (l.getD i 0) := by
  intro l
  induction l with
  | nil => simp
  | cons x xs ih =>
      rw [List.map_cons, List.sum_cons, ih, List.length_cons, Finset.sum_range_succ']
      simp [List.getD_cons_succ, List.getD_cons_zero, add_comm]

/-- A list sum over a zipped `map` as a `Finset.range` sum over default-read
entries, for lists of equal length. -/
lemma zip_map_sum_eq_range_sum (f : ℚ × ℚ → ℚ) :
    ∀ (a b : List ℚ), a.length = b.length →
      ((a.zip b).map f).sum
        = ∑ i in Finset.range a.length, f (a.getD i 0, b.getD i 0) := by
  intro a
  induction a with
  | nil => simp
  | cons x xs ih =>
      intro b hb
      match b with
      | [] => simp at hb
      | y :: ys =>
          rw [List.zip_cons_cons, List.map_cons, List.sum_cons,
            ih ys (by simpa using hb), List.length_cons, Finset.sum_range_succ']
          simp [List.getD_cons_succ, List.getD_cons_zero, add_comm]

/-- Cauchy–Schwarz for the source's `np.dot` and sums of squares. -/
lemma dotProduct_sq_le (a b : List ℚ) (h : a.length = b.length) :
    dotProduct a b ^ 2 ≤ sumSq a * sumSq b := by
  have hd := zip_map_sum_eq_range_sum (fun p => p.1 * p.2) a b h
  have hsa := map_sum_eq_range_sum (fun x => x ^ 2) a
  have hsb := map_sum_eq_range_sum (fun x => x ^ 2) b
  rw [← h] at hsb
  rw [dotProduct, sumSq, sumSq, hd, hsa, hsb]
  show (∑ i in Finset.range a.length, a.getD i 0 * b.getD i 0) ^ 2 ≤
    (∑ i in Finset.range a.length, a.getD i 0 ^ 2) *
      ∑ i in Finset.range a.length, b.getD i 0 ^ 2
  exact Finset.sum_mul_sq_le_sq_mul_sq _ _ _

/-- The absolute dot product is at most the product of the norms. -/
lemma abs_dotProduct_le (a b : List ℚ) (h : a.length = b.length) :
    |(dotProduct a b : ℝ)| ≤ npNorm a * npNorm b := by
  have h1 : |(dotProduct a b : ℝ)| = Real.sqrt ((dotProduct a b : ℝ) ^ 2) :=
    (Real.sqrt_sq_eq_abs _).symm
  have h2 : ((dotProduct a b : ℝ)) ^ 2 ≤ (sumSq a : ℝ) * (sumSq b : ℝ) := by
    exact_mod_cast dotProduct_sq_le a b h
  rw [h1, npNorm, npNorm, ← Real.sqrt_mul (by exact_mod_cast sumSq_nonneg a)]
  exact Real.sqrt_le_sqrt h2

/-! ## The batch success path -/

/-- A monadic fold over `Except` that never errors is the corresponding pure fold. -/
lemma foldlM_eq_ok {ε α β : Type*} (f : β → α → Except ε β) (g : β → α → β) :
    ∀ (l : List α) (init : β), (∀ b : β, ∀ a ∈ l, f b a = .ok (g b a)) →
      l.foldlM f init = .ok (l.foldl g init) := by
  intro l
  induction l with
  | nil => intro init _; rfl
  | cons x xs ih =>
      intro init h
      rw [List.foldlM_cons, h init x (List.mem_cons_self x xs)]
      have hb : (Except.ok (g init x) >>= fun b => xs.foldlM f b)
          = xs.foldlM f (g init x) := rfl
      rw [hb, ih (g init x) (fun b a ha => h b a (List.mem_cons_of_mem _ ha)),
        List.foldl_cons]

/-- A pure fold that appends to both components of a pair accumulator. -/
lemma foldl_append_pair {α β γ : Type*} (f : α → List β) (g : α → List γ) :
    ∀ (l : List α) (r : List β) (p : List γ),
      l.foldl (fun acc x => (acc.1 ++ f x, acc.2 ++ g x)) (r, p)
        = (r ++ l.flatMap f, p ++ l.flatMap g) := by
  intro l
  induction l with
  | nil => intro r p; simp
  | cons x xs ih =>
      intro r p
      rw [List.foldl_cons]
      exact (ih (r ++ f x) (p ++ g x)).trans (by simp [List.append_assoc])

lemma flatMap_pure_eq_map {α β : Type*} (f : α → β) :
    ∀ l : List α, (l.flatMap fun x => [f x]) = l.map f := by
  intro l
  induction l with
  | nil => rfl
  | cons x xs ih => simp [List.flatMap_cons, ih]

lemma flatMap_if_singleton {α β : Type*} (p : α → Prop) [DecidablePred p] (g : α → β) :
    ∀ l : List α, (l.flatMap fun x => if p x then [g x] else [])
      = (l.filter fun x => decide (p x)).map g := by
  intro l
  induction l with
  | nil => rfl
  | cons x xs ih =>
      by_cases h : p x <;> simp [List.flatMap_cons, List.filter_cons, h, ih]

lemma flatMap_congr_mem {α β : Type*} (l : List α) (f g : α → List β)
    (h : ∀ x ∈ l, f x = g x) : l.flatMap f = l.flatMap g := by
  induction l with
  | nil => rfl
  | cons x xs ih =>
      rw [List.flatMap_cons, List.flatMap_cons, h x (List.mem_cons_self x xs),
        ih fun y hy => h y (List.mem_cons_of_mem _ hy)]

/-- When the metric kind is supported and the two points have equal length,
`calculate` succeeds with the dispatched metric value. -/
lemma calculate_ok (a b : List ℚ) (t : String) (ht : t ∈ supported_types)
    (h : a.length = b.length) :
    calculate a b t = .ok ⟨metric_distance a b t, t, a, b, a.length⟩ := by
  simp [calculate, ht, h]

lemma getD_length_of_forall (points : List (List ℚ)) (d : ℕ)
    (hd : ∀ p ∈ points, p.length = d) (i : ℕ) (hi : i < points.length) :
    (points.getD i []).length = d := by
  rw [List.getD_eq_getElem _ _ hi]
  exact hd _ (List.getElem_mem hi)

/-- On the success path, one inner-loop step appends the cell value to the row
and the cell's pair contribution to the pair list. -/
lemma batch_step_eq (points : List (List ℚ)) (t : String) (i : ℕ)
    (acc : List ℝ × List CalculationPair) (j : ℕ) (ht : t ∈ supported_types)
    (hlen : (points.getD i []).length = (points.getD j []).length) :
    batch_step points t i acc j
      = .ok (acc.1 ++ [batch_cell points t i j],
             acc.2 ++ batch_pair_entries points t i j) := by
  unfold batch_step batch_cell batch_pair_entries
  by_cases hij : i = j
  · simp [hij]
  · rw [if_neg hij, if_neg hij, calculate_ok _ _ _ ht hlen]
    by_cases hlt : i < j <;>
      simp only [hlt, if_true, if_false, List.append_nil] <;> rfl

/-- On the success path, the inner loop produces row `i` of the matrix and
appends the row's pair contributions. -/
lemma batch_row_eq (points : List (List ℚ)) (t : String) (d : ℕ)
    (pairs : List CalculationPair) (i : ℕ) (hi : i < points.length)
    (ht : t ∈ supported_types) (hd : ∀ p ∈ points, p.length = d) :
    batch_row points t pairs i
      = .ok ((List.range points.length).map (batch_cell points t i),
          pairs ++ (List.range points.length).flatMap (batch_pair_entries points t i)) := by
  have hstep : ∀ b : List ℝ × List CalculationPair, ∀ j ∈ List.range points.length,
      batch_step points t i b j
        = .ok (b.1 ++ [batch_cell points t i j],
            b.2 ++ batch_pair_entries points t i j) := by
    intro b j hj
    refine batch_step_eq points t i b j ht ?_
    rw [getD_length_of_forall points d hd i hi,
      getD_length_of_forall points d hd j (List.mem_range.mp hj)]
  rw [batch_row, foldlM_eq_ok _ _ _ _ hstep, foldl_append_pair]
  simp [flatMap_pure_eq_map]

/-- On the success path, `batch_calculate` returns the canonical matrix of
`batch_cell`s and the concatenated pair contributions. -/
lemma batch_calculate_eq (points : List (List ℚ)) (t : String) (d : ℕ)
    (h2 : 2 ≤ points.length) (hd : ∀ p ∈ points, p.length = d)
    (ht : t ∈ supported_types) :
    batch_calculate points t = .ok
      { distance_matrix := (List.range points.length).map fun i =>
          (List.range points.length).map (batch_cell points t i)
        calculation_type := t
        points := points
        calculation_pairs := (List.range points.length).flatMap fun i =>
          (List.range points.length).flatMap (batch_pair_entries points t i)
        point_count := points.length } := by
  have hstep : ∀ acc : List (List ℝ) × List CalculationPair,
      ∀ i ∈ List.range points.length,
      batch_outer_step points t acc i
        = .ok (acc.1 ++ [(List.range points.length).map (batch_cell points t i)],
            acc.2 ++ (List.range points.length).flatMap (batch_pair_entries points t i)) := by
    intro acc i hi
    unfold batch_outer_step
    rw [batch_row_eq points t d acc.2 i (List.mem_range.mp hi) ht hd]
    rfl
  unfold batch_calculate
  rw [if_neg (by omega), foldlM_eq_ok _ _ _ _ hstep, foldl_append_pair]
  have hbind : ∀ mp : List (List ℝ) × List CalculationPair,
      (Except.ok mp >>= fun mp =>
        (pure { distance_matrix := mp.1
                calculation_type := t
                points := points
                calculation_pairs := mp.2
                point_count := points.length } : Except CalcError BatchResult))
      = .ok { distance_matrix := mp.1
              calculation_type := t
              points := points
              calculation_pairs := mp.2
              point_count := points.length } := fun mp => rfl
  rw [hbind]
  simp [flatMap_pure_eq_map]

lemma batch_cell_comm (points : List (List ℚ)) (t : String) (i j : ℕ) :
    batch_cell points t i j = batch_cell points t j i := by
  unfold batch_cell
  by_cases h : i = j
  · simp [h]
  · rw [if_neg h, if_neg (Ne.symm h), metric_distance_comm]

/-- Entry `(i, j)` of the canonical batch matrix is `batch_cell i j`. -/
lemma matrixEntry_canonical (points : List (List ℚ)) (t : String) (i j : ℕ)
    (hi : i < points.length) (hj : j < points.length) :
    matrixEntry ((List.range points.length).map fun i =>
        (List.range points.length).map (batch_cell points t i)) i j
      = batch_cell points t i j := by
  have hrow : ((List.range points.length).map fun k =>
      (List.range points.length).map (batch_cell points t k)).getD i ([] : List ℝ)
      = (List.range points.length).map (batch_cell points t i) := by
    rw [List.getD_eq_getElem _ _ (by simpa using hi), List.getElem_map,
      List.getElem_range]
  unfold matrixEntry
  rw [hrow, List.getD_eq_getElem _ _ (by simpa using hj), List.getElem_map,
    List.getElem_range]

/-! ## Claim theorems: pairwise metrics -/

/-- C6: for vectors of differing lengths and any supported metric kind,
`calculate` fails with the dimension-mismatch error; for any unsupported
metric kind it fails with the invalid-metric error. -/
theorem calculate_error_conditions :
    (∀ (a b : List ℚ) (t : String), t ∈ supported_types → a.length ≠ b.length →
      calculate a b t = .error .dimensionMismatch) ∧
    (∀ (a b : List ℚ) (t : String), t ∉ supported_types →
      calculate a b t = .error (.invalidMetric t)) := by
  constructor
  · intro a b t ht hlen
    simp [calculate, ht, hlen]
  · intro a b t ht
    simp [calculate, ht]

/-- Witness for C6 at `a = [1,2]`, `b = [1,2,3]`, metric `"euclidean"`,
and at the unsupported metric `"chebyshev"`. -/
theorem calculate_error_conditions_witness :
    calculate [1, 2] [1, 2, 3] "euclidean" = .error .dimensionMismatch ∧
    calculate [1] [1] "chebyshev" = .error (.invalidMetric "chebyshev") :=
  ⟨calculate_error_conditions.1 [1, 2] [1, 2, 3] "euclidean" (by decide) (by decide),
   calculate_error_conditions.2 [1] [1] "chebyshev" (by decide)⟩

/-- C7: with fewer than two points, `batch_calculate` fails with the
insufficient-points error, hence returns no result structure. -/
theorem batch_calculate_insufficient_points (points : List (List ℚ)) (t : String)
    (h : points.length < 2) :
    batch_calculate points t = .error .insufficientPoints ∧
    ∀ r : BatchResult, batch_calculate points t ≠ .ok r := by
  have he : batch_calculate points t = .error .insufficientPoints := by
    simp [batch_calculate, h]
  exact ⟨he, fun r hr => by rw [he] at hr; cases hr⟩

/-- Witness for C7 at the empty point list and at a singleton point list. -/
theorem batch_calculate_insufficient_points_witness :
    (batch_calculate [] "euclidean" = .error .insufficientPoints ∧
      ∀ r : BatchResult, batch_calculate [] "euclidean" ≠ .ok r) ∧
    (batch_calculate [[1, 2]] "cosine" = .error .insufficientPoints ∧
      ∀ r : BatchResult, batch_calculate [[1, 2]] "cosine" ≠ .ok r) :=
  ⟨batch_calculate_insufficient_points [] "euclidean" (by decide),
   batch_calculate_insufficient_points [[1, 2]] "cosine" (by decide)⟩

/-- C9: `calculate([1,1,1], [1,1,1], "cosine")` returns distance exactly `0.0`. -/
theorem calculate_cosine_identical_points :
    ∃ r : CalcResult, calculate [1, 1, 1] [1, 1, 1] "cosine" = .ok r ∧ r.distance = 0 := by
  have hsupp : ("cosine" : String) ∈ supported_types := by decide
  have hnorm : npNorm [1, 1, 1] = Real.sqrt 3 := by
    norm_num [npNorm, sumSq]
  have hne : npNorm [1, 1, 1] ≠ 0 := by
    rw [hnorm]
    positivity
  have hdot : dotProduct [1, 1, 1] [1, 1, 1] = 3 := by
    norm_num [dotProduct]
  have hcos : cosine_distance [1, 1, 1] [1, 1, 1] = 0 := by
    rw [cosine_distance, if_neg (by simp [hne]), hdot, hnorm,
      Real.mul_self_sqrt (by norm_num)]
    norm_num
  refine ⟨{ distance := metric_distance [1, 1, 1] [1, 1, 1] "cosine",
            calculation_type := "cosine", point_a := [1, 1, 1],
            point_b := [1, 1, 1], dimensionality := 3 }, ?_, ?_⟩
  · simp [calculate, hsupp]
  · show metric_distance [1, 1, 1] [1, 1, 1] "cosine" = 0
    have hm : metric_distance [1, 1, 1] [1, 1, 1] "cosine"
        = cosine_distance [1, 1, 1] [1, 1, 1] := by
      simp [metric_distance]
    rw [hm, hcos]

/-- C2 counterexample: at `a = b = [1]` (equal lengths, non-negative entries)
the jaccard distance is `0` although the union sum is `1 ≠ 0`, so
"`jaccard = 0.0` iff `sum(max(a,b)) = 0`" fails in the only-if direction. -/
theorem jaccard_zero_iff_refuted :
    ([1] : List ℚ).length = ([1] : List ℚ).length ∧
    (∀ x ∈ ([1] : List ℚ), 0 ≤ x) ∧
    jaccard_distance [1] [1] = 0 ∧ jaccard_union [1] [1] ≠ 0 := by
  refine ⟨rfl, by decide, ?_, ?_⟩
  · norm_num [jaccard_distance, jaccard_union, jaccard_intersection]
  · norm_num [jaccard_union]

/-- C2 (amended): for equal-length non-negative vectors, the jaccard distance
is `0` when the union sum is zero, equals `1 - intersection/union` otherwise,
and overall vanishes exactly when the union sum is zero or the intersection
sum equals the union sum (e.g. when `a = b`). -/
theorem jaccard_distance_spec (a b : List ℚ) (hlen : a.length = b.length)
    (ha : ∀ x ∈ a, 0 ≤ x) (hb : ∀ x ∈ b, 0 ≤ x) :
    (jaccard_union a b = 0 → jaccard_distance a b = 0) ∧
    (jaccard_union a b ≠ 0 →
      jaccard_distance a b = 1 - jaccard_intersection a b / jaccard_union a b) ∧
    (jaccard_distance a b = 0 ↔
      (jaccard_union a b = 0 ∨ jaccard_intersection a b = jaccard_union a b)) := by
  by_cases hu : jaccard_union a b = 0
  · exact ⟨fun _ => by simp [jaccard_distance, hu], fun h => absurd hu h,
      by simp [jaccard_distance, hu]⟩
  · refine ⟨fun h => absurd h hu, fun _ => by simp [jaccard_distance, hu], ?_⟩
    rw [jaccard_distance, if_neg hu, sub_eq_zero]
    constructor
    · intro h
      right
      have h' := h.symm
      field_simp at h'
      exact h'
    · rintro (h | h)
      · exact absurd h hu
      · rw [h, div_self hu]

/-- Witness for C2 (amended) at `a = b = [1]`. -/
theorem jaccard_distance_spec_witness :
    (jaccard_union [1] [1] = 0 → jaccard_distance [1] [1] = 0) ∧
    (jaccard_union [1] [1] ≠ 0 →
      jaccard_distance [1] [1]
        = 1 - jaccard_intersection [1] [1] / jaccard_union [1] [1]) ∧
    (jaccard_distance [1] [1] = 0 ↔
      (jaccard_union [1] [1] = 0 ∨
        jaccard_intersection [1] [1] = jaccard_union [1] [1])) :=
  jaccard_distance_spec [1] [1] rfl (by decide) (by decide)

/-- C3 counterexample: `[1,0]` and `[0,1]` have nonzero norms yet cosine
distance exactly `1`, so "`cosine = 1.0` iff either norm is zero" fails in
the only-if direction. -/
theorem cosine_one_iff_refuted :
    ([1, 0] : List ℚ).length = ([0, 1] : List ℚ).length ∧
    cosine_distance [1, 0] [0, 1] = 1 ∧
    npNorm [1, 0] ≠ 0 ∧ npNorm [0, 1] ≠ 0 := by
  have h10 : npNorm [1, 0] = 1 := by
    have hs : sumSq [1, 0] = 1 := by norm_num [sumSq]
    rw [npNorm, hs]
    norm_num
  have h01 : npNorm [0, 1] = 1 := by
    have hs : sumSq [0, 1] = 1 := by norm_num [sumSq]
    rw [npNorm, hs]
    norm_num
  have hdot : dotProduct [1, 0] [0, 1] = 0 := by norm_num [dotProduct]
  refine ⟨rfl, ?_, by rw [h10]; norm_num, by rw [h01]; norm_num⟩
  rw [cosine_distance, if_neg (by rw [h10, h01]; norm_num), hdot, h10, h01]
  norm_num

/-- C3 (amended): for equal-length vectors the cosine distance lies in
`[0, 2]`, and it equals `1.0` whenever either vector has zero norm. -/
theorem cosine_distance_range (a b : List ℚ) (hlen : a.length = b.length) :
    0 ≤ cosine_distance a b ∧ cosine_distance a b ≤ 2 ∧
    ((npNorm a = 0 ∨ npNorm b = 0) → cosine_distance a b = 1) := by
  by_cases hc : npNorm a = 0 ∨ npNorm b = 0
  · have h1 : cosine_distance a b = 1 := by rw [cosine_distance, if_pos hc]
    rw [h1]
    norm_num
  · push_neg at hc
    have ha0 : 0 < npNorm a := (npNorm_nonneg a).lt_of_ne (Ne.symm hc.1)
    have hb0 : 0 < npNorm b := (npNorm_nonneg b).lt_of_ne (Ne.symm hc.2)
    have hprod : 0 < npNorm a * npNorm b := mul_pos ha0 hb0
    have habs := abs_dotProduct_le a b hlen
    have hle : (dotProduct a b : ℝ) ≤ npNorm a * npNorm b := (abs_le.mp habs).2
    have hge : -(npNorm a * npNorm b) ≤ (dotProduct a b : ℝ) := (abs_le.mp habs).1
    have hval : cosine_distance a b
        = 1 - (dotProduct a b : ℝ) / (npNorm a * npNorm b) := by
      rw [cosine_distance, if_neg (not_or.mpr ⟨hc.1, hc.2⟩)]
    have hd1 : (dotProduct a b : ℝ) / (npNorm a * npNorm b) ≤ 1 :=
      (div_le_one hprod).mpr hle
    have hd2 : -1 ≤ (dotProduct a b : ℝ) / (npNorm a * npNorm b) := by
      rw [le_div_iff₀ hprod]
      linarith
    refine ⟨?_, ?_, fun h => absurd h (not_or.mpr ⟨hc.1, hc.2⟩)⟩ <;>
      rw [hval] <;> linarith

/-- Witness for C3 (amended) at `a = b = [1]`. -/
theorem cosine_distance_range_witness :
    0 ≤ cosine_distance [1] [1] ∧ cosine_distance [1] [1] ≤ 2 ∧
    ((npNorm [1] = 0 ∨ npNorm [1] = 0) → cosine_distance [1] [1] = 1) :=
  cosine_distance_range [1] [1] rfl

/-! ## Claim theorems: batch mode -/

/-- C1: for at least two points of a common dimensionality and any supported
metric kind, `batch_calculate` succeeds and its distance matrix is symmetric
with an all-zero diagonal. -/
theorem batch_matrix_symmetric_zero_diagonal (points : List (List ℚ)) (t : String)
    (d : ℕ) (h2 : 2 ≤ points.length) (hd : ∀ p ∈ points, p.length = d)
    (ht : t ∈ supported_types) :
    ∃ r : BatchResult, batch_calculate points t = .ok r ∧
      (∀ i j, i < points.length → j < points.length →
        matrixEntry r.distance_matrix i j = matrixEntry r.distance_matrix j i) ∧
      (∀ i, i < points.length → matrixEntry r.distance_matrix i i = 0) := by
  refine ⟨_, batch_calculate_eq points t d h2 hd ht, ?_, ?_⟩
  · intro i j hi hj
    show matrixEntry ((List.range points.length).map fun k =>
        (List.range points.length).map (batch_cell points t k)) i j
      = matrixEntry ((List.range points.length).map fun k =>
        (List.range points.length).map (batch_cell points t k)) j i
    rw [matrixEntry_canonical points t i j hi hj,
      matrixEntry_canonical points t j i hj hi, batch_cell_comm]
  · intro i hi
    show matrixEntry ((List.range points.length).map fun k =>
        (List.range points.length).map (batch_cell points t k)) i i = 0
    rw [matrixEntry_canonical points t i i hi hi]
    unfold batch_cell
    simp

/-- Witness for C1 at the two one-dimensional points `[0]` and `[1]` with the
euclidean metric. -/
theorem batch_matrix_symmetric_zero_diagonal_witness :
    ∃ r : BatchResult, batch_calculate [[0], [1]] "euclidean" = .ok r ∧
      (∀ i j, i < ([[0], [1]] : List (List ℚ)).length →
        j < ([[0], [1]] : List (List ℚ)).length →
        matrixEntry r.distance_matrix i j = matrixEntry r.distance_matrix j i) ∧
      (∀ i, i < ([[0], [1]] : List (List ℚ)).length →
        matrixEntry r.distance_matrix i i = 0) :=
  batch_matrix_symmetric_zero_diagonal [[0], [1]] "euclidean" 1 (by decide)
    (by decide) (by decide)

lemma length_filter_lt_range (N i : ℕ) :
    ((List.range N).filter fun j => decide (i < j)).length = N - (i + 1) := by
  induction N with
  | zero => simp
  | succ n ih =>
      rw [List.range_succ, List.filter_append, List.length_append, ih]
      by_cases h : i < n <;> simp [List.filter_cons, h] <;> omega

lemma list_range_map_sum {M : Type*} [AddCommMonoid M] (f : ℕ → M) (N : ℕ) :
    ((List.range N).map f).sum = ∑ i in Finset.range N, f i := by
  induction N with
  | zero => rfl
  | succ n ih =>
      rw [List.range_succ, List.map_append, List.sum_append, ih,
        Finset.sum_range_succ]
      simp

lemma sum_range_pred (N : ℕ) :
    ((List.range N).map fun i => N - (i + 1)).sum = N * (N - 1) / 2 := by
  rw [list_range_map_sum]
  have h : ∀ i ∈ Finset.range N, N - (i + 1) = N - 1 - i := fun i _ => by omega
  have hr : ∑ i in Finset.range N, (N - 1 - i) = ∑ i in Finset.range N, i :=
    Finset.sum_range_reflect (fun i => i) N
  rw [Finset.sum_congr rfl h, hr, Finset.sum_range_id]

lemma flatMap_batch_pair_entries (points : List (List ℚ)) (t : String) (i : ℕ)
    (l : List ℕ) :
    l.flatMap (batch_pair_entries points t i)
      = (l.filter fun j => decide (i < j)).map fun j =>
        (⟨[i, j], metric_distance (points.getD i []) (points.getD j []) t⟩ :
          CalculationPair) := by
  unfold batch_pair_entries
  exact flatMap_if_singleton _ _ _

/-- C8: on a valid batch input of N points, `calculation_pairs` holds exactly
one entry per index pair `i < j` — `N·(N−1)/2` entries in all, listed in
lexicographic order — and each entry's distance is the matrix entry `(i, j)`. -/
theorem batch_calculation_pairs_spec (points : List (List ℚ)) (t : String)
    (d : ℕ) (h2 : 2 ≤ points.length) (hd : ∀ p ∈ points, p.length = d)
    (ht : t ∈ supported_types) :
    ∃ r : BatchResult, batch_calculate points t = .ok r ∧
      r.calculation_pairs = ((List.range points.length).flatMap fun i =>
        ((List.range points.length).filter fun j => decide (i < j)).map fun j =>
          ⟨[i, j], matrixEntry r.distance_matrix i j⟩) ∧
      r.calculation_pairs.length = points.length * (points.length - 1) / 2 := by
  refine ⟨_, batch_calculate_eq points t d h2 hd ht, ?_, ?_⟩
  · show ((List.range points.length).flatMap fun i =>
        (List.range points.length).flatMap (batch_pair_entries points t i))
      = (List.range points.length).flatMap fun i =>
        ((List.range points.length).filter fun j => decide (i < j)).map fun j =>
          ⟨[i, j], matrixEntry ((List.range points.length).map fun k =>
            (List.range points.length).map (batch_cell points t k)) i j⟩
    refine flatMap_congr_mem _ _ _ ?_
    intro i hi
    rw [flatMap_batch_pair_entries]
    refine List.map_congr_left ?_
    intro j hj
    obtain ⟨hjr, hij⟩ := List.mem_filter.mp hj
    have hij' : i < j := of_decide_eq_true hij
    have hiN : i < points.length := List.mem_range.mp hi
    have hjN : j < points.length := List.mem_range.mp hjr
    rw [matrixEntry_canonical points t i j hiN hjN]
    unfold batch_cell
    rw [if_neg (Nat.ne_of_lt hij')]
  · show ((List.range points.length).flatMap fun i =>
        (List.range points.length).flatMap (batch_pair_entries points t i)).length
      = points.length * (points.length - 1) / 2
    rw [List.length_flatMap]
    have hlen1 : ∀ i ∈ List.range points.length,
        (Function.comp List.length fun i =>
          (List.range points.length).flatMap (batch_pair_entries points t i)) i
        = points.length - (i + 1) := by
      intro i _
      show ((List.range points.length).flatMap (batch_pair_entries points t i)).length
        = points.length - (i + 1)
      rw [flatMap_batch_pair_entries, List.length_map, length_filter_lt_range]
    rw [List.map_congr_left hlen1, sum_range_pred]

/-- Witness for C8 at the two one-dimensional points `[0]` and `[1]` with the
manhattan metric. -/
theorem batch_calculation_pairs_spec_witness :
    ∃ r : BatchResult, batch_calculate [[0], [1]] "manhattan" = .ok r ∧
      r.calculation_pairs = ((List.range ([[0], [1]] : List (List ℚ)).length).flatMap fun i =>
        ((List.range ([[0], [1]] : List (List ℚ)).length).filter fun j => decide (i < j)).map fun j =>
          ⟨[i, j], matrixEntry r.distance_matrix i j⟩) ∧
      r.calculation_pairs.length
        = ([[0], [1]] : List (List ℚ)).length * (([[0], [1]] : List (List ℚ)).length - 1) / 2 :=
  batch_calculation_pairs_spec [[0], [1]] "manhattan" 1 (by decide) (by decide) (by decide)

/-! ## Claim theorems: the calculate-distance route -/

/-- C10: the calculate-distance route answers 400 ("Both points are
required") whenever `point_a` or `point_b` is absent or the empty list — the
handler tests truthiness, not presence; in particular both fields present
with one equal to `[]` yields 400, not a computed result. -/
theorem calculate_distance_route_requires_truthy_points :
    (∀ (pa pb : Option (List ℚ)) (ct : Option String),
      (pa = none ∨ pa = some [] ∨ pb = none ∨ pb = some []) →
      calculate_distance_route pa pb ct = .badRequest "Both points are required") ∧
    calculate_distance_route (some []) (some [1, 2]) none
      = .badRequest "Both points are required" := by
  constructor
  · intro pa pb ct h
    have hfalse : pyTruthy pa = false ∨ pyTruthy pb = false := by
      rcases h with h | h | h | h <;> subst h <;> simp [pyTruthy]
    simp only [calculate_distance_route]
    rw [if_pos hfalse]
  · simp [calculate_distance_route, pyTruthy]

/-- Witness for C10 with `point_a` absent. -/
theorem calculate_distance_route_requires_truthy_points_witness :
    calculate_distance_route none (some [1]) (some "cosine")
      = .badRequest "Both points are required" :=
  calculate_distance_route_requires_truthy_points.1 none (some [1]) (some "cosine")
    (Or.inl rfl)

/-! ## Digit and string lemmas for the JSON round trip -/

lemma digitChar_isDigit (d : ℕ) (h : d < 10) : (digitChar d).isDigit = true := by
  interval_cases d <;> decide

lemma charDigitVal_digitChar (d : ℕ) (h : d < 10) :
    charDigitVal (digitChar d) = d := by
  interval_cases d <;> decide

lemma isDigit_ne_of {c : Char} (x : Char) (h : c.isDigit = true)
    (hx : x.isDigit = false) : c ≠ x := by
  intro hc
  subst hc
  rw [h] at hx
  cases hx

lemma natDigitsRev_lt (fuel : ℕ) : ∀ n, ∀ d ∈ natDigitsRev fuel n, d < 10 := by
  induction fuel with
  | zero => intro n d hd; simp [natDigitsRev] at hd
  | succ fuel ih =>
      intro n d hd
      rw [natDigitsRev] at hd
      by_cases hn : n = 0
      · simp [hn] at hd
      · rw [if_neg hn] at hd
        rcases List.mem_append.mp hd with h | h
        · exact ih _ _ h
        · simp at h
          omega

lemma digitsVal_append_single (ds : List ℕ) (d : ℕ) :
    digitsVal (ds ++ [d]) = digitsVal ds * 10 + d := by
  simp [digitsVal, List.foldl_append]

lemma digitsVal_natDigitsRev (fuel : ℕ) :
    ∀ n, n ≤ fuel → digitsVal (natDigitsRev fuel n) = n := by
  induction fuel with
  | zero =>
      intro n hn
      interval_cases n
      simp [natDigitsRev, digitsVal]
  | succ fuel ih =>
      intro n hn
      rw [natDigitsRev]
      by_cases hn0 : n = 0
      · simp [hn0, digitsVal]
      · rw [if_neg hn0, digitsVal_append_single,
          ih (n / 10) (by omega)]
        omega

lemma natDigitsRev_ne_nil (fuel n : ℕ) (hn : n ≠ 0) (hf : fuel ≠ 0) :
    natDigitsRev fuel n ≠ [] := by
  match fuel with
  | 0 => exact absurd rfl hf
  | fuel + 1 =>
      rw [natDigitsRev, if_neg hn]
      simp

lemma natDigitList_lt (n : ℕ) : ∀ d ∈ natDigitList n, d < 10 := by
  intro d hd
  rw [natDigitList] at hd
  by_cases hn : n = 0
  · rw [if_pos hn] at hd
    simp at hd
    omega
  · rw [if_neg hn] at hd
    exact natDigitsRev_lt n n d hd

lemma digitsVal_natDigitList (n : ℕ) : digitsVal (natDigitList n) = n := by
  rw [natDigitList]
  by_cases hn : n = 0
  · simp [hn, digitsVal]
  · rw [if_neg hn]
    exact digitsVal_natDigitsRev n n le_rfl

lemma natDigitList_ne_nil (n : ℕ) : natDigitList n ≠ [] := by
  rw [natDigitList]
  by_cases hn : n = 0
  · simp [hn]
  · rw [if_neg hn]
    exact natDigitsRev_ne_nil n n hn hn

lemma spanDigits_map_append (ds : List ℕ) (h10 : ∀ d ∈ ds, d < 10)
    (rest : List Char) (hrest : goodTail rest) :
    spanDigits (ds.map digitChar ++ rest) = (ds, rest) := by
  induction ds with
  | nil =>
      match rest with
      | [] => rfl
      | c :: r =>
          have : c.isDigit = false := hrest
          simp [spanDigits, this]
  | cons d ds ih =>
      have hd : d < 10 := h10 d (List.mem_cons_self d ds)
      rw [List.map_cons, List.cons_append, spanDigits,
        if_pos (digitChar_isDigit d hd),
        ih fun x hx => h10 x (List.mem_cons_of_mem _ hx)]
      simp [charDigitVal_digitChar d hd]

lemma spanDigits_natToDigitChars (n : ℕ) (rest : List Char) (hrest : goodTail rest) :
    spanDigits (natToDigitChars n ++ rest) = (natDigitList n, rest) := by
  rw [natToDigitChars]
  exact spanDigits_map_append _ (natDigitList_lt n) rest hrest

lemma parseStringBody_round (s : List Char) (rest : List Char) :
    parseStringBody (escapeString s ++ '"' :: rest) = some (s, rest) := by
  induction s with
  | nil =>
      show parseStringBody ('"' :: rest) = some ([], rest)
      rw [parseStringBody.eq_def]
      simp
  | cons c s ih =>
      rw [escapeString, List.flatMap_cons]
      simp only [escapeString] at ih
      by_cases hc : c = '"' ∨ c = '\\'
      · rw [escapeChar, if_pos hc, List.cons_append, List.singleton_append,
          parseStringBody.eq_def]
        simp [ih]
      · push_neg at hc
        rw [escapeChar, if_neg (by tauto), List.singleton_append,
          parseStringBody.eq_def]
        simp [hc.1, hc.2, ih]

lemma jsize_pos (v : JValue) : 1 ≤ jsize v := by
  cases v <;> simp [jsize]

lemma jsizeElems_pos (es : List JValue) : 1 ≤ jsizeElems es := by
  cases es <;> simp [jsizeElems]

lemma jsizeFields_pos (fs : List (List Char × JValue)) : 1 ≤ jsizeFields fs := by
  cases fs with
  | nil => simp [jsizeFields]
  | cons f fs => obtain ⟨k, v⟩ := f; simp [jsizeFields]

lemma goodTail_cons (c : Char) (l : List Char) (h : c.isDigit = false) :
    goodTail (c :: l) := h

lemma renderElemsAux_cons₂ (v w : JValue) (ws : List JValue) :
    renderElemsAux (v :: w :: ws) = render v ++ ',' :: renderElemsAux (w :: ws) := by
  rw [renderElemsAux]
  simp

lemma renderFieldsAux_cons₂ (k : List Char) (v : JValue)
    (g : List Char × JValue) (fs : List (List Char × JValue)) :
    renderFieldsAux ((k, v) :: g :: fs)
      = '"' :: escapeString k ++ '"' :: ':' :: render v ++ ','
          :: renderFieldsAux (g :: fs) := by
  rw [renderFieldsAux]
  simp

/-- Every rendered JSON value begins with a character other than `]`. -/
lemma render_head (v : JValue) : ∃ c cs, render v = c :: cs ∧ c ≠ ']' := by
  cases v with
  | null =>
      refine ⟨'n', ['u', 'l', 'l'], ?_, by decide⟩
      simp [render, toCharList]
  | bool b =>
      cases b
      · refine ⟨'f', ['a', 'l', 's', 'e'], ?_, by decide⟩
        simp [render, toCharList]
      · refine ⟨'t', ['r', 'u', 'e'], ?_, by decide⟩
        simp [render, toCharList]
  | num n =>
      by_cases hneg : n < 0
      · refine ⟨'-', natToDigitChars n.natAbs, ?_, by decide⟩
        simp [render, renderInt, hneg]
      · obtain ⟨d, ds, hds⟩ := List.exists_cons_of_ne_nil (natDigitList_ne_nil n.toNat)
        have hd10 : d < 10 := natDigitList_lt _ d (hds ▸ List.mem_cons_self d ds)
        refine ⟨digitChar d, ds.map digitChar, ?_,
          isDigit_ne_of _ (digitChar_isDigit d hd10) (by decide)⟩
        simp [render, renderInt, hneg, natToDigitChars, hds]
  | str s =>
      refine ⟨'"', escapeString s ++ ['"'], ?_, by decide⟩
      simp [render]
  | arr es =>
      refine ⟨'[', renderElemsAux es, ?_, by decide⟩
      simp [render]
  | obj fs =>
      refine ⟨'\x7b', renderFieldsAux fs, ?_, by decide⟩
      simp [render]

/-- The round trip: parsing a rendered JSON value (with enough fuel, and a
continuation that does not begin with a digit) returns the value and the
continuation — simultaneously for values, array tails and object tails. -/
lemma parse_render_round (fuel : ℕ) :
    (∀ v rest, jsize v ≤ fuel → goodTail rest →
      parseValue fuel (render v ++ rest) = some (v, rest)) ∧
    (∀ es rest, jsizeElems es ≤ fuel →
      parseElems fuel (renderElemsAux es ++ rest) = some (es, rest)) ∧
    (∀ fs rest, jsizeFields fs ≤ fuel →
      parseFields fuel (renderFieldsAux fs ++ rest) = some (fs, rest)) := by
  induction fuel with
  | zero =>
      refine ⟨?_, ?_, ?_⟩
      · intro v rest hs _
        exact absurd hs (by have := jsize_pos v; omega)
      · intro es rest hs
        exact absurd hs (by have := jsizeElems_pos es; omega)
      · intro fs rest hs
        exact absurd hs (by have := jsizeFields_pos fs; omega)
  | succ fuel ih =>
      obtain ⟨ihP, ihQ, ihR⟩ := ih
      refine ⟨?_, ?_, ?_⟩
      · intro v rest hs hrest
        cases v with
        | null =>
            have hr : render .null = ['n', 'u', 'l', 'l'] := by
              simp [render, toCharList]
            rw [hr]
            simp [parseValue]
        | bool b =>
            cases b
            · have hr : render (.bool false) = ['f', 'a', 'l', 's', 'e'] := by
                simp [render, toCharList]
              rw [hr]
              simp [parseValue]
            · have hr : render (.bool true) = ['t', 'r', 'u', 'e'] := by
                simp [render, toCharList]
              rw [hr]
              simp [parseValue]
        | num n =>
            have hr : render (.num n) = renderInt n := by simp [render]
            rw [hr, renderInt]
            by_cases hneg : n < 0
            · rw [if_pos hneg, List.cons_append]
              obtain ⟨d, ds, hds⟩ :=
                List.exists_cons_of_ne_nil (natDigitList_ne_nil n.natAbs)
              have hd10 : d < 10 := natDigitList_lt _ d (hds ▸ List.mem_cons_self d ds)
              have hdig := digitChar_isDigit d hd10
              have hchars : natToDigitChars n.natAbs ++ rest
                  = digitChar d :: (ds.map digitChar ++ rest) := by
                rw [natToDigitChars, hds, List.map_cons, List.cons_append]
              have hspan := spanDigits_natToDigitChars n.natAbs rest hrest
              have hval : (digitsVal (natDigitList n.natAbs) : ℤ) = -n := by
                rw [digitsVal_natDigitList]
                omega
              rw [hchars]
              simp only [parseValue, hdig]
              rw [← hchars, hspan]
              simp [hval]
            · rw [if_neg hneg]
              obtain ⟨d, ds, hds⟩ :=
                List.exists_cons_of_ne_nil (natDigitList_ne_nil n.toNat)
              have hd10 : d < 10 := natDigitList_lt _ d (hds ▸ List.mem_cons_self d ds)
              have hdig := digitChar_isDigit d hd10
              have h1 : digitChar d ≠ 'n' := isDigit_ne_of _ hdig (by decide)
              have h2 : digitChar d ≠ 't' := isDigit_ne_of _ hdig (by decide)
              have h3 : digitChar d ≠ 'f' := isDigit_ne_of _ hdig (by decide)
              have h4 : digitChar d ≠ '"' := isDigit_ne_of _ hdig (by decide)
              have h5 : digitChar d ≠ '-' := isDigit_ne_of _ hdig (by decide)
              have hchars : natToDigitChars n.toNat ++ rest
                  = digitChar d :: (ds.map digitChar ++ rest) := by
                rw [natToDigitChars, hds, List.map_cons, List.cons_append]
              have hspan := spanDigits_natToDigitChars n.toNat rest hrest
              have hval : (digitsVal (natDigitList n.toNat) : ℤ) = n := by
                rw [digitsVal_natDigitList]
                omega
              rw [hchars]
              simp only [parseValue, h1, h2, h3, h4, h5, hdig, if_false, if_true]
              rw [← hchars, hspan]
              simp [hval]
        | str s =>
            have hr : render (.str s) = '"' :: (escapeString s ++ ['"']) := by
              simp [render]
            rw [hr, List.cons_append, List.append_assoc, List.singleton_append]
            simp [parseValue, parseStringBody_round]
        | arr es =>
            have hr : render (.arr es) = '[' :: renderElemsAux es := by
              simp [render]
            have hq := ihQ es rest (by
              have : jsize (.arr es) = 1 + jsizeElems es := by simp [jsize]
              omega)
            rw [hr, List.cons_append]
            simp [parseValue, hq]
        | obj fs =>
            have hr : render (.obj fs) = '\x7b' :: renderFieldsAux fs := by
              simp [render]
            have hq := ihR fs rest (by
              have : jsize (.obj fs) = 1 + jsizeFields fs := by simp [jsize]
              omega)
            rw [hr, List.cons_append]
            simp [parseValue, hq]
      · intro es rest hs
        cases es with
        | nil =>
            have hr : renderElemsAux [] = [']'] := by rw [renderElemsAux]
            rw [hr, List.singleton_append]
            simp [parseElems]
        | cons v vs =>
            obtain ⟨c, cs, hv, hcne⟩ := render_head v
            have hmax : max (jsize v) (jsizeElems vs) ≤ fuel := by
              have hs' : 1 + max (jsize v) (jsizeElems vs) ≤ fuel + 1 := by
                simpa [jsizeElems] using hs
              omega
            have hsv : jsize v ≤ fuel := le_trans (le_max_left _ _) hmax
            cases vs with
            | nil =>
                have hr : renderElemsAux [v] = render v ++ [']'] := by
                  rw [renderElemsAux]
                have hp := ihP v (']' :: rest) hsv (goodTail_cons _ _ (by decide))
                have hback : c :: (cs ++ ']' :: rest) = render v ++ ']' :: rest := by
                  rw [hv, List.cons_append]
                rw [hr, List.append_assoc, List.singleton_append, hv,
                  List.cons_append]
                simp only [parseElems, hcne, if_false]
                rw [hback, hp]
                simp
            | cons w ws =>
                have hsw : jsizeElems (w :: ws) ≤ fuel :=
                  le_trans (le_max_right _ _) hmax
                have hp := ihP v (',' :: (renderElemsAux (w :: ws) ++ rest)) hsv
                  (goodTail_cons _ _ (by decide))
                have hq := ihQ (w :: ws) rest hsw
                have hback : c :: (cs ++ ',' :: (renderElemsAux (w :: ws) ++ rest))
                    = render v ++ ',' :: (renderElemsAux (w :: ws) ++ rest) := by
                  rw [hv, List.cons_append]
                rw [renderElemsAux_cons₂, List.append_assoc, List.cons_append, hv,
                  List.cons_append]
                simp only [parseElems, hcne, if_false]
                rw [hback, hp]
                simp [hq]
      · intro fs rest hs
        cases fs with
        | nil =>
            have hr : renderFieldsAux [] = ['\x7d'] := by rw [renderFieldsAux]
            rw [hr, List.singleton_append]
            simp [parseFields]
        | cons f fs =>
            obtain ⟨k, v⟩ := f
            have hmax : max (jsize v) (jsizeFields fs) ≤ fuel := by
              have hs' : 1 + max (jsize v) (jsizeFields fs) ≤ fuel + 1 := by
                simpa [jsizeFields] using hs
              omega
            have hsv : jsize v ≤ fuel := le_trans (le_max_left _ _) hmax
            cases fs with
            | nil =>
                have hr : renderFieldsAux [(k, v)]
                    = '"' :: escapeString k ++ '"' :: ':' :: render v ++ ['\x7d'] := by
                  rw [renderFieldsAux]
                have hp := ihP v ('\x7d' :: rest) hsv (goodTail_cons _ _ (by decide))
                rw [hr]
                simp only [List.append_assoc, List.cons_append,
                  List.singleton_append]
                simp [parseFields, parseStringBody_round, hp]
            | cons g gs =>
                have hsg : jsizeFields (g :: gs) ≤ fuel :=
                  le_trans (le_max_right _ _) hmax
                have hp := ihP v (',' :: (renderFieldsAux (g :: gs) ++ rest)) hsv
                  (goodTail_cons _ _ (by decide))
                have hq := ihR (g :: gs) rest hsg
                rw [renderFieldsAux_cons₂]
                simp only [List.append_assoc, List.cons_append,
                  List.singleton_append]
                simp [parseFields, parseStringBody_round, hp, hq]

/-! ## Claim theorems: the results exporter -/

/-- C4: exporting any result structure with the structured-text (JSON) format
and parsing the produced string back yields, under the `results` key of the
envelope, the original result structure unchanged (for any timestamp, and any
parser fuel at least the nesting size of the envelope). -/
theorem export_json_round_trip (results : JValue) (timestamp : List Char)
    (fuel : ℕ) (hfuel : jsize (export_json_value results timestamp) ≤ fuel) :
    ∃ envelope : JValue,
      parseValue fuel (export_json results timestamp) = some (envelope, []) ∧
      jlookup (toCharList "results") envelope = some results := by
  refine ⟨export_json_value results timestamp, ?_, ?_⟩
  · have h := (parse_render_round fuel).1 (export_json_value results timestamp) []
      hfuel (by trivial)
    simpa [export_json] using h
  · have h1 : (toCharList "results" == toCharList "export_info") = false := by decide
    have h2 : (toCharList "results" == toCharList "results") = true := by decide
    simp [jlookup, export_json_value, List.lookup, h1, h2]

/-- Witness for C4 at the result structure `{"distance": 5}`, a concrete
timestamp, and fuel 12. -/
theorem export_json_round_trip_witness :
    ∃ envelope : JValue,
      parseValue 12 (export_json (.obj [(toCharList "distance", .num 5)])
        (toCharList "20250602T000000")) = some (envelope, []) ∧
      jlookup (toCharList "results") envelope
        = some (.obj [(toCharList "distance", .num 5)]) :=
  export_json_round_trip (.obj [(toCharList "distance", .num 5)])
    (toCharList "20250602T000000") 12
    (by simp [jsize, jsizeFields, jsizeElems, export_json_value, export_info_fields])

/-- C5: the tabular-text (CSV) export selects its shape by precedence —
distance matrix first, then calculation pairs, then a generic key/value dump —
and on `{distance_matrix: [[0,1],[1,0]]}` produces exactly
`Point,P0,P1` / `P0,0,1` / `P1,1,0`. -/
theorem export_csv_spec :
    (∀ (rd : List (List Char × JValue)) (rows : List JValue),
      rd.lookup (toCharList "distance_matrix") = some (.arr rows) →
      export_csv rd = (csvMatrixRows 0 rows).map fun rs =>
        csvRender ((toCharList "Point" ::
          (List.range rows.length).map fun i => 'P' :: natToDigitChars i) :: rs)) ∧
    (∀ (rd : List (List Char × JValue)) (pairs : List JValue),
      rd.lookup (toCharList "distance_matrix") = none →
      rd.lookup (toCharList "calculation_pairs") = some (.arr pairs) →
      export_csv rd = (csvPairRows pairs).map fun rs =>
        csvRender ([toCharList "Point_A_Index", toCharList "Point_B_Index",
          toCharList "Distance"] :: rs)) ∧
    (∀ rd : List (List Char × JValue),
      rd.lookup (toCharList "distance_matrix") = none →
      rd.lookup (toCharList "calculation_pairs") = none →
      export_csv rd = some (csvRender ([toCharList "Key", toCharList "Value"] ::
        rd.map fun f => [f.1, pyStr f.2]))) ∧
    export_csv [(toCharList "distance_matrix",
        .arr [.arr [.num 0, .num 1], .arr [.num 1, .num 0]])]
      = some (toCharList "Point,P0,P1\r\nP0,0,1\r\nP1,1,0\r\n") := by
  refine ⟨?_, ?_, ?_, ?_⟩
  · intro rd rows hm
    simp [export_csv, hm]
  · intro rd pairs hm hp
    simp [export_csv, hm, hp]
  · intro rd hm hp
    simp [export_csv, hm, hp]
  · simp [export_csv, csvMatrixRows, csvRender, csvRow, csvJoinFields,
      csvEscapeField, csvNeedsQuote, pyStr, renderInt, natToDigitChars,
      natDigitList, natDigitsRev, digitChar, toCharList, List.lookup]

/-- Witness for C5: the three precedence branches applied at concrete inputs
(`{distance_matrix: []}`, `{calculation_pairs: []}`, `{n: 1}`). -/
theorem export_csv_spec_witness :
    (export_csv [(toCharList "distance_matrix", .arr [])]
      = (csvMatrixRows 0 []).map fun rs =>
        csvRender ((toCharList "Point" ::
          (List.range ([] : List JValue).length).map
            fun i => 'P' :: natToDigitChars i) :: rs)) ∧
    (export_csv [(toCharList "calculation_pairs", .arr [])]
      = (csvPairRows []).map fun rs =>
        csvRender ([toCharList "Point_A_Index", toCharList "Point_B_Index",
          toCharList "Distance"] :: rs)) ∧
    (export_csv [(toCharList "n", .num 1)]
      = some (csvRender ([toCharList "Key", toCharList "Value"] ::
        [(toCharList "n", JValue.num 1)].map fun f => [f.1, pyStr f.2]))) :=
  ⟨export_csv_spec.1 [(toCharList "distance_matrix", .arr [])] [] (by rfl),
   export_csv_spec.2.1 [(toCharList "calculation_pairs", .arr [])] [] (by rfl)
     (by rfl),
   export_csv_spec.2.2.1 [(toCharList "n", .num 1)] (by rfl) (by rfl)⟩

end DistanceServer
